import Mathlib

/-!
# gen_pool: extraction of a node's internal IP, CIDR derivation, manifest rendering

A shallow embedding of `cmd/gen_pool/main.go`.

* Go strings are Lean `String`s; the operations on them work on the character list.
* A Go result pair `(string, error)` is a Lean pair `String × Option String`, the second
  component being `none` for a `nil` error and `some msg` for an error with message `msg`.
* Go `int` values are Lean `Int`s (the program performs no arithmetic on them, it only
  prints them).
-/

namespace GenPool

/-! ## Library functions used by the program -/

namespace strings

/-- Character-list form of `strings.Split(s, sep)` for a separator of one character:
the pieces of `s` between the occurrences of `sep`, in order. There is always one piece
more than there are separators; a string without separator (the empty one included) gives
one piece. -/
def splitChars (sep : Char) : List Char → List (List Char)
  | [] => [[]]
  | c :: cs =>
    if c = sep then [] :: splitChars sep cs
    else
      match splitChars sep cs with
      | [] => [[c]]
      | p :: ps => (c :: p) :: ps

/-- Go `strings.Split(s, sep)` for a separator of one character. -/
def Split (s : String) (sep : Char) : List String :=
  (splitChars sep s.data).map String.mk

end strings

namespace fmt

/-- Decimal rendering of a Go `int`, the `%d` verb of `fmt.Sprintf`: the decimal digits of
the absolute value, preceded by `-` for a negative number. -/
def decimal : Int → String
  | Int.ofNat n => String.mk (Nat.toDigits 10 n)
  | Int.negSucc n => String.mk ('-' :: Nat.toDigits 10 (n + 1))

end fmt

namespace json

/-- A well-formed JSON document as a tree. Object members are kept in document order,
duplicates included; a number keeps its literal text. -/
inductive Json where
  | null
  | bool (b : Bool)
  | number (literal : String)
  | string (s : String)
  | array (elems : List Json)
  | object (members : List (String × Json))

/-- The input bytes as `json.Unmarshal` sees them: `malformed` when they fail the syntax
check it runs before touching the destination, and the document tree otherwise. -/
inductive Data where
  | malformed
  | document (doc : Json)

/-- A Go slice `[]α` as the decoder sees it: its `len` elements, and the stale elements
that follow them in the backing array (left there when an earlier decode into the same
slice was longer). -/
structure Slice (α : Type) where
  elems : List α
  spare : List α

/-- Folding of one character of an object key, as far as it can reach an ASCII letter:
lower-case ASCII letters, the long s (U+017F) and the Kelvin sign (U+212A). -/
def foldChar (c : Char) : Char :=
  if 97 ≤ c.toNat ∧ c.toNat ≤ 122 then Char.ofNat (c.toNat - 32)
  else if c.toNat = 383 then 'S'
  else if c.toNat = 8490 then 'K'
  else c

/-- Whether the object key `key` selects the struct field tagged `field`: the decoder
matches keys to field names up to case folding. -/
def keyIs (field key : String) : Bool :=
  key.data.map foldChar == field.data.map foldChar

/-- Decoding a JSON value into a Go `string` holding `cur`: `null` leaves it alone, a
string replaces it, anything else is a type error (`none`). -/
def decodeString (cur : String) : Json → Option String
  | .null => some cur
  | .string s => some s
  | _ => none

/-- The members of an object are decoded in document order, each into the value left by
the ones before it. `step cur key val` decodes one member. -/
def decodeMembers {α : Type} (step : α → String → Json → Option α) (cur : α) :
    List (String × Json) → Option α
  | [] => some cur
  | (k, v) :: rest =>
    match step cur k v with
    | none => none
    | some next => decodeMembers step next rest

/-- Decoding a JSON value into a Go struct holding `cur`: `null` leaves it alone, an
object is decoded member by member, anything else is a type error. -/
def decodeStruct {α : Type} (step : α → String → Json → Option α) (cur : α) :
    Json → Option α
  | .null => some cur
  | .object members => decodeMembers step cur members
  | _ => none

/-- The elements of a JSON array are decoded in order, the one at index `i` into what
the backing array holds at index `i` (the zero value beyond it). Returns the decoded
elements and the part of the backing array behind them. -/
def decodeElems {α : Type} (zero : α) (elem : α → Json → Option α) :
    List α → List Json → Option (List α × List α)
  | backing, [] => some ([], backing)
  | backing, j :: js =>
    match elem (backing.headD zero) j with
    | none => none
    | some x =>
      match decodeElems zero elem backing.tail js with
      | none => none
      | some (xs, rest) => some (x :: xs, rest)

/-- Decoding a JSON value into a Go slice: `null` gives the nil slice, the empty array
a fresh empty slice, a non-empty array is decoded element by element over the backing
array, anything else is a type error. -/
def decodeSlice {α : Type} (zero : α) (elem : α → Json → Option α) (cur : Slice α) :
    Json → Option (Slice α)
  | .null => some ⟨[], []⟩
  | .array [] => some ⟨[], []⟩
  | .array (j :: js) =>
    match decodeElems zero elem (cur.elems ++ cur.spare) (j :: js) with
    | none => none
    | some (xs, rest) => some ⟨xs, rest⟩
  | _ => none

/-- Go `json.Unmarshal(data, &v)` for a destination `v` holding `zero`, given the
decoder of its type: `none` is a non-nil error (a syntax error or a type error), `some v`
is a nil error with the decoded value. -/
def Unmarshal {α : Type} (decode : α → Json → Option α) (zero : α) : Data → Option α
  | .malformed => none
  | .document doc => decode zero doc

end json

namespace template

/-- A parsed template of the fragment of `text/template` the program uses: literal text,
and field actions `\x7b\x7b.Name\x7d\x7d` that print the field `Name` of the data. -/
inductive Node where
  | text (s : List Char)
  | field (name : List Char)
  deriving DecidableEq

/-- Whether a character may occur in a field name. -/
def isIdentChar (c : Char) : Bool :=
  c.isAlphanum || c = '_'

/-- The body of an action, read as a field action: a dot and a non-empty identifier,
with blanks around allowed. -/
def fieldOfAction (body : List Char) : Option (List Char) :=
  let trimmed := ((body.dropWhile (· = ' ')).reverse.dropWhile (· = ' ')).reverse
  match trimmed with
  | '.' :: name => if name ≠ [] ∧ name.all isIdentChar then some name else none
  | _ => none

/-- The template scanner. `action = none`: in literal text, `acc` being the text read so
far, reversed; `action = some acc`: inside an action whose body read so far is `acc`,
reversed. A template outside the fragment gives `none` (a parse error). -/
def scan : Option (List Char) → List Char → List Char → Option (List Node)
  | none, acc, '\x7b' :: '\x7b' :: rest =>
    (scan (some []) [] rest).map fun nodes =>
      if acc = [] then nodes else Node.text acc.reverse :: nodes
  | none, acc, c :: rest => scan none (c :: acc) rest
  | none, acc, [] => some (if acc = [] then [] else [Node.text acc.reverse])
  | some body, _, '\x7d' :: '\x7d' :: rest =>
    match fieldOfAction body.reverse with
    | some name => (scan none [] rest).map fun nodes => Node.field name :: nodes
    | none => none
  | some body, acc, c :: rest => scan (some (c :: body)) acc rest
  | some _, _, [] => none

/-- Go `template.New(name).Parse(text)`, on the fragment above. -/
def Parse (text : String) : Option (List Node) :=
  scan none [] text.data

/-- Go `tmpl.Execute(wr, data)` as far as it depends on the template: the text it sends
to the writer and its error. `lookup` gives the printed value of a field of the data,
`none` for a field the data does not have; execution stops at such a field, with the
text before it already sent. -/
def Execute (lookup : List Char → Option String) : List Node → String × Option String
  | [] => ("", none)
  | Node.text s :: rest =>
    let r := Execute lookup rest
    (String.mk s ++ r.1, r.2)
  | Node.field name :: rest =>
    match lookup name with
    | none => ("", some ("can't evaluate field " ++ String.mk name))
    | some v =>
      let r := Execute lookup rest
      (v ++ r.1, r.2)

end template

open json (Json Data Slice)

/-! ## The program -/

/-- Go `type NodeAddress struct`, with the fields tagged `type` and `address`. -/
structure NodeAddress where
  Type_ : String
  Address : String
  deriving DecidableEq

/-- Go `type NodeStatus struct`, with the field tagged `addresses`. -/
structure NodeStatus where
  Addresses : Slice NodeAddress

/-- Go `type Node struct`, with the field tagged `status`. -/
structure Node where
  Status : NodeStatus

/-- Go `type NodeList struct`, with the field tagged `items`. -/
structure NodeList where
  Items : Slice Node

/-- Go `type SingleNode struct`, with the field tagged `status`. -/
structure SingleNode where
  Status : NodeStatus

/-- Go `type PoolConfig struct`. -/
structure PoolConfig where
  PoolName : String
  PoolCIDR : String

/-- Decoder of `NodeAddress`, from its field tags. -/
def decodeNodeAddress : NodeAddress → Json → Option NodeAddress :=
  json.decodeStruct fun a k v =>
    if json.keyIs "type" k then
      (json.decodeString a.Type_ v).map fun s => { a with Type_ := s }
    else if json.keyIs "address" k then
      (json.decodeString a.Address v).map fun s => { a with Address := s }
    else some a

/-- Decoder of `NodeStatus`, from its field tags. -/
def decodeNodeStatus : NodeStatus → Json → Option NodeStatus :=
  json.decodeStruct fun st k v =>
    if json.keyIs "addresses" k then
      (json.decodeSlice ⟨"", ""⟩ decodeNodeAddress st.Addresses v).map fun s => ⟨s⟩
    else some st

/-- Decoder of `Node`, from its field tags. -/
def decodeNode : Node → Json → Option Node :=
  json.decodeStruct fun n k v =>
    if json.keyIs "status" k then (decodeNodeStatus n.Status v).map fun s => ⟨s⟩
    else some n

/-- Decoder of `NodeList`, from its field tags. -/
def decodeNodeList : NodeList → Json → Option NodeList :=
  json.decodeStruct fun l k v =>
    if json.keyIs "items" k then
      (json.decodeSlice ⟨⟨⟨[], []⟩⟩⟩ decodeNode l.Items v).map fun s => ⟨s⟩
    else some l

/-- Decoder of `SingleNode`, from its field tags. -/
def decodeSingleNode : SingleNode → Json → Option SingleNode :=
  json.decodeStruct fun n k v =>
    if json.keyIs "status" k then (decodeNodeStatus n.Status v).map fun s => ⟨s⟩
    else some n

/-- The loop `for _, addr := range addresses` of `extractInternalIP` (it occurs twice):
`some a` when the loop returns `a`, `none` when it runs to its end. -/
def scanAddresses : List NodeAddress → Option String
  | [] => none
  | addr :: rest =>
    if addr.Type_ = "InternalIP" then some addr.Address else scanAddresses rest

/-- The loop `for _, node := range nodeList.Items` of `extractInternalIP`: `some a` when
the inner loop returns `a` for some node, `none` when the loop runs to its end. -/
def scanNodes : List Node → Option String
  | [] => none
  | node :: rest =>
    match scanAddresses node.Status.Addresses.elems with
    | some a => some a
    | none => scanNodes rest

/-- Go `var nodeList NodeList; err := json.Unmarshal(data, &nodeList)`: `none` for a
non-nil error, else the value left in `nodeList`. -/
def unmarshalNodeList (data : Data) : Option NodeList :=
  json.Unmarshal decodeNodeList ⟨⟨[], []⟩⟩ data

/-- Go `var singleNode SingleNode; err := json.Unmarshal(data, &singleNode)`: `none` for
a non-nil error, else the value left in `singleNode`. -/
def unmarshalSingleNode (data : Data) : Option SingleNode :=
  json.Unmarshal decodeSingleNode ⟨⟨⟨[], []⟩⟩⟩ data

/-- The first part of `extractInternalIP`, the attempt to read the data as a `NodeList`:
`some a` when it returns `a`, `none` when control falls through to the second part. -/
def tryNodeList (data : Data) : Option String :=
  match unmarshalNodeList data with
  | some nodeList =>
    if nodeList.Items.elems.length > 0 then scanNodes nodeList.Items.elems else none
  | none => none

/-- The second part of `extractInternalIP`, the attempt to read the data as a
`SingleNode`: `some a` when it returns `a`, `none` when control falls through. -/
def trySingleNode (data : Data) : Option String :=
  match unmarshalSingleNode data with
  | some singleNode => scanAddresses singleNode.Status.Addresses.elems
  | none => none

/-- Go `extractInternalIP(data)`. -/
def extractInternalIP (data : Data) : String × Option String :=
  match tryNodeList data with
  | some a => (a, none)
  | none =>
    match trySingleNode data with
    | some a => (a, none)
    | none => ("", some "could not find InternalIP in nodes data")

/-- Go `computePoolCIDR(ip, poolOffset, poolMask)`: transforms `x.y.z.w` into
`x.y.255.<poolOffset>/<poolMask>`. -/
def computePoolCIDR (ip : String) (poolOffset : Int) (poolMask : Int) :
    String × Option String :=
  let parts := strings.Split ip '.'
  if parts.length ≠ 4 then
    ("", some ("invalid IP address format: " ++ ip))
  else
    (parts.getD 0 "" ++ "." ++ parts.getD 1 "" ++ ".255." ++ fmt.decimal poolOffset
      ++ "/" ++ fmt.decimal poolMask, none)

/-- Go `const poolTemplate`. -/
def poolTemplate : String :=
  "apiVersion: cilium.io/v2alpha1\nkind: CiliumLoadBalancerIPPool\nmetadata:\n  name: \x7b\x7b.PoolName\x7d\x7d\nspec:\n  blocks:\n  - cidr: \x7b\x7b.PoolCIDR\x7d\x7d\n"

/-- The fields of `PoolConfig` as a template sees them. -/
def PoolConfig.lookup (config : PoolConfig) (name : List Char) : Option String :=
  if name = "PoolName".data then some config.PoolName
  else if name = "PoolCIDR".data then some config.PoolCIDR
  else none

/-- The values of the command-line flags after `flag.Parse()`. -/
structure Flags where
  nodesFile : String
  poolName : String
  outputFile : String
  poolOffset : Int
  poolMask : Int

/-- The flag values when no flag is given: the defaults of the `flag.StringVar` and
`flag.IntVar` declarations of `main`. -/
def Flags.defaults : Flags :=
  { nodesFile := "", poolName := "", outputFile := "-", poolOffset := 200, poolMask := 29 }

/-- What `main` needs from the operating system. -/
structure Env where
  /-- Go `os.Args[0]`. -/
  arg0 : String
  /-- Go `os.ReadFile(path)`: the error message, or the bytes read. -/
  ReadFile : String → Except String Data
  /-- Go `os.Create(path)`: the error message if it fails. -/
  Create : String → Option String
  /-- Writing `text` to the destination (`none` for standard output, `some path` for
  the created file): what reaches the destination, and the error message if writing
  fails. -/
  Write : Option String → String → String × Option String

/-- What a run of `main` leaves behind. -/
structure Outcome where
  exitCode : Nat
  stderr : String
  /-- Bytes that reached standard output. -/
  stdout : String
  /-- The file given to `os.Create`, if the run got that far and it succeeded. -/
  created : Option String
  /-- Bytes that reached the created file. -/
  fileData : String

/-- A run that stops with `os.Exit(1)` after printing `msg` to standard error, before any
output destination exists. -/
def Outcome.fail (msg : String) : Outcome :=
  { exitCode := 1, stderr := msg, stdout := "", created := none, fileData := "" }

/-- Go `main()`, after `flag.Parse()`. -/
def main (env : Env) (flags : Flags) : Outcome :=
  if flags.nodesFile = "" ∨ flags.poolName = "" then
    Outcome.fail ("Usage: " ++ env.arg0 ++
      " -nodes <file> -pool-name <name> [-output <file>] [-pool-offset <offset>] [-pool-mask <mask>]\n")
  else
    -- Read nodes file
    match env.ReadFile flags.nodesFile with
    | .error err => Outcome.fail ("Error reading nodes file: " ++ err ++ "\n")
    | .ok data =>
      -- Extract internal IP
      match extractInternalIP data with
      | (_, some err) => Outcome.fail ("Error extracting internal IP: " ++ err ++ "\n")
      | (internalIP, none) =>
        -- Compute CIDR
        match computePoolCIDR internalIP flags.poolOffset flags.poolMask with
        | (_, some err) => Outcome.fail ("Error computing pool CIDR: " ++ err ++ "\n")
        | (poolCIDR, none) =>
          -- Parse and execute template
          match template.Parse poolTemplate with
          | none => Outcome.fail "Error parsing template: template: pool: parse error\n"
          | some tmpl =>
            let config : PoolConfig := { PoolName := flags.poolName, PoolCIDR := poolCIDR }
            let rendered := template.Execute config.lookup tmpl
            -- Determine output writer
            if flags.outputFile = "-" then
              let written := env.Write none rendered.1
              match written.2 <|> rendered.2 with
              | some err =>
                { exitCode := 1, stderr := "Error executing template: " ++ err ++ "\n",
                  stdout := written.1, created := none, fileData := "" }
              | none =>
                { exitCode := 0, stderr := "", stdout := written.1, created := none,
                  fileData := "" }
            else
              match env.Create flags.outputFile with
              | some err => Outcome.fail ("Error creating output file: " ++ err ++ "\n")
              | none =>
                let written := env.Write (some flags.outputFile) rendered.1
                match written.2 <|> rendered.2 with
                | some err =>
                  { exitCode := 1, stderr := "Error executing template: " ++ err ++ "\n",
                    stdout := "", created := some flags.outputFile, fileData := written.1 }
                | none =>
                  { exitCode := 0, stderr := "", stdout := "",
                    created := some flags.outputFile, fileData := written.1 }

/-! ## The inputs of `main_test.go` -/

/-- An address entry `\x7b"address": address, "type": type\x7d`. -/
def addressEntry (address type : String) : Json :=
  .object [("address", .string address), ("type", .string type)]

/-- A node record `\x7b"status": \x7b"addresses": [...]\x7d\x7d`. -/
def nodeRecord (addresses : List Json) : Json :=
  .object [("status", .object [("addresses", .array addresses)])]

/-- Test input `single_node_json` (also the input of `TestEndToEnd`). -/
def singleNodeJson : Data :=
  .document (nodeRecord
    [addressEntry "192.168.1.100" "InternalIP", addressEntry "test-node" "Hostname"])

/-- Test input `node_list_json`. -/
def nodeListJson : Data :=
  .document (.object [("items", .array
    [nodeRecord [addressEntry "172.18.0.3" "InternalIP"],
     nodeRecord [addressEntry "172.18.0.2" "InternalIP"]])])

/-- Test input `no_internal_ip`. -/
def noInternalIPJson : Json :=
  nodeRecord [addressEntry "test-node" "Hostname", addressEntry "203.0.113.1" "ExternalIP"]

/-- Test input `node_with_multiple_ips_returns_first`. -/
def multipleIPsJson : Data :=
  .document (.object [("items", .array
    [nodeRecord [addressEntry "10.0.0.1" "InternalIP", addressEntry "10.0.0.2" "InternalIP"]])])

/-- The input `single_node_json` with its two address entries swapped. -/
def hostnameFirstJson : Data :=
  .document (nodeRecord
    [addressEntry "test-node" "Hostname", addressEntry "192.168.1.100" "InternalIP"])

/-- An input with both a collection and a top-level record: one item with the internal
IP `10.0.0.1`, and top-level addresses with the internal IP `192.168.1.100`. -/
def itemsAndStatusJson : Data :=
  .document (.object
    [("items", .array [nodeRecord [addressEntry "10.0.0.1" "InternalIP"]]),
     ("status", .object [("addresses", .array [addressEntry "192.168.1.100" "InternalIP"])])])

/-- An input with both a collection and a top-level record: one item with a `Hostname`
address only, and top-level addresses with a `Hostname` entry and then the internal IPs
`192.168.1.100` and `192.168.1.101`. -/
def itemsWithoutMatchJson : Data :=
  .document (.object
    [("items", .array [nodeRecord [addressEntry "node-1" "Hostname"]]),
     ("status", .object [("addresses", .array
        [addressEntry "test-node" "Hostname", addressEntry "192.168.1.100" "InternalIP",
         addressEntry "192.168.1.101" "InternalIP"])])])

/-- An input whose internal IP is not a dotted quad. -/
def badAddressJson : Data :=
  .document (nodeRecord [addressEntry "not-an-ip" "InternalIP"])

/-- An operating system for the examples: the nodes file holds `data`, `os.Create` fails
with the error `createErr` when one is given, and every write goes through. -/
def exampleEnv (data : Data) (createErr : Option String) : Env :=
  { arg0 := "gen_pool",
    ReadFile := fun _ => .ok data,
    Create := fun _ => createErr,
    Write := fun _ text => (text, none) }

/-- Flags for the examples: the pool name of `TestEndToEnd`, the default offset and mask,
and the given output file. -/
def exampleFlags (outputFile : String) : Flags :=
  { nodesFile := "nodes.json", poolName := "e2e-test-pool", outputFile := outputFile,
    poolOffset := 200, poolMask := 29 }

/-! ## Notions the properties are stated with -/

/-- The address part of a CIDR string `address/mask`: the text before its last slash
(the empty string when it has none). -/
def addressPart (cidr : String) : String :=
  String.mk ((cidr.data.reverse.dropWhile (· ≠ '/')).drop 1).reverse

/-- Whether the run created an output file or wrote anything to an output destination. -/
def Outcome.hasOutput (o : Outcome) : Bool :=
  o.stdout != "" || o.created.isSome || o.fileData != ""

/-! ## Facts about the library functions -/

namespace strings

theorem splitChars_ne_nil (sep : Char) (s : List Char) : splitChars sep s ≠ [] := by
  cases s with
  | nil => simp [splitChars]
  | cons c cs =>
    by_cases h : c = sep
    · simp [splitChars, h]
    · simp only [splitChars, h, if_false]
      cases splitChars sep cs <;> simp

/-- There is one piece more than there are separators. -/
theorem splitChars_length (sep : Char) (s : List Char) :
    (splitChars sep s).length = s.count sep + 1 := by
  induction s with
  | nil => simp [splitChars]
  | cons c cs ih =>
    by_cases h : c = sep
    · subst h
      simp [splitChars, ih]
    · have hne := splitChars_ne_nil sep cs
      simp only [splitChars, h, if_false]
      rw [List.count_cons_of_ne (Ne.symm h)]
      cases hs : splitChars sep cs with
      | nil => exact absurd hs hne
      | cons p ps => rw [hs] at ih; simpa using ih

/-- A string without separator is its own single piece. -/
theorem splitChars_of_not_mem (sep : Char) (p : List Char) (h : sep ∉ p) :
    splitChars sep p = [p] := by
  induction p with
  | nil => simp [splitChars]
  | cons c cs ih =>
    have hc : c ≠ sep := fun e => h (by simp [e])
    have hcs : sep ∉ cs := fun e => h (List.mem_cons_of_mem _ e)
    simp [splitChars, hc, ih hcs]

/-- The first piece ends at the first separator. -/
theorem splitChars_append (sep : Char) (p rest : List Char) (h : sep ∉ p) :
    splitChars sep (p ++ sep :: rest) = p :: splitChars sep rest := by
  induction p with
  | nil => simp [splitChars]
  | cons c cs ih =>
    have hc : c ≠ sep := fun e => h (by simp [e])
    have hcs : sep ∉ cs := fun e => h (List.mem_cons_of_mem _ e)
    simp [splitChars, hc, ih hcs]

/-- No piece contains the separator. -/
theorem not_mem_of_mem_splitChars (sep : Char) (s p : List Char)
    (hp : p ∈ splitChars sep s) : sep ∉ p := by
  induction s generalizing p with
  | nil =>
    simp [splitChars] at hp
    simp [hp]
  | cons c cs ih =>
    by_cases h : c = sep
    · simp only [splitChars, h, if_true, List.mem_cons] at hp
      rcases hp with rfl | hp
      · simp
      · exact ih p hp
    · simp only [splitChars, h, if_false] at hp
      cases hs : splitChars sep cs with
      | nil => exact absurd hs (splitChars_ne_nil sep cs)
      | cons q qs =>
        rw [hs] at hp ih
        simp only [List.mem_cons] at hp
        rcases hp with rfl | hp
        · have hq := ih q (by simp)
          intro hmem
          rcases List.mem_cons.mp hmem with e | e
          · exact h e.symm
          · exact hq e
        · exact ih p (by simp [hp])

/-- Joining the pieces with the separator gives the string back. -/
theorem intercalate_splitChars (sep : Char) (s : List Char) :
    [sep].intercalate (splitChars sep s) = s := by
  induction s with
  | nil => simp [splitChars, List.intercalate]
  | cons c cs ih =>
    by_cases h : c = sep
    · subst h
      have hne := splitChars_ne_nil c cs
      simp only [splitChars, if_true]
      cases hs : splitChars c cs with
      | nil => exact absurd hs hne
      | cons q qs =>
        rw [hs] at ih
        simp only [List.intercalate, List.intersperse, List.flatten] at ih ⊢
        simp [ih]
    · simp only [splitChars, h, if_false]
      cases hs : splitChars sep cs with
      | nil => exact absurd hs (splitChars_ne_nil sep cs)
      | cons q qs =>
        rw [hs] at ih
        cases qs with
        | nil =>
          simp only [List.intercalate, List.intersperse, List.flatten] at ih ⊢
          simpa using ih
        | cons r rs =>
          simp only [List.intercalate, List.intersperse, List.flatten] at ih ⊢
          simpa using ih

/-- Four strings without a dot, joined by dots, split into these four strings. -/
theorem Split_dotted (p0 p1 p2 p3 : String) (h0 : '.' ∉ p0.data) (h1 : '.' ∉ p1.data)
    (h2 : '.' ∉ p2.data) (h3 : '.' ∉ p3.data) :
    Split (p0 ++ "." ++ p1 ++ "." ++ p2 ++ "." ++ p3) '.' = [p0, p1, p2, p3] := by
  have hd : (p0 ++ "." ++ p1 ++ "." ++ p2 ++ "." ++ p3).data
      = p0.data ++ '.' :: (p1.data ++ '.' :: (p2.data ++ '.' :: p3.data)) := by
    simp [String.data_append]
  unfold Split
  rw [hd, splitChars_append _ _ _ h0, splitChars_append _ _ _ h1,
    splitChars_append _ _ _ h2, splitChars_of_not_mem _ _ h3]
  rfl

/-- The number of pieces of `Split`, from the number of separators. -/
theorem Split_length (s : String) (sep : Char) :
    (Split s sep).length = s.data.count sep + 1 := by
  simp [Split, splitChars_length]

/-- A string is its pieces joined by the separator, and no piece has a separator. -/
theorem Split_eq_four (s p0 p1 p2 p3 : String) (h : Split s '.' = [p0, p1, p2, p3]) :
    s = p0 ++ "." ++ p1 ++ "." ++ p2 ++ "." ++ p3 ∧
      '.' ∉ p0.data ∧ '.' ∉ p1.data ∧ '.' ∉ p2.data ∧ '.' ∉ p3.data := by
  unfold Split at h
  have hmem : ∀ p ∈ splitChars '.' s.data, '.' ∉ p :=
    fun p hp => not_mem_of_mem_splitChars '.' s.data p hp
  have hj := intercalate_splitChars '.' s.data
  cases hs : splitChars '.' s.data with
  | nil => rw [hs] at h; simp at h
  | cons a t =>
    cases t with
    | nil => rw [hs] at h; simp at h
    | cons b t =>
      cases t with
      | nil => rw [hs] at h; simp at h
      | cons c t =>
        cases t with
        | nil => rw [hs] at h; simp at h
        | cons d t =>
          cases t with
          | cons e t => rw [hs] at h; simp at h
          | nil =>
            rw [hs] at h hmem hj
            simp only [List.map, List.cons.injEq, and_true] at h
            obtain ⟨ha, hb, hc, hd⟩ := h
            subst ha hb hc hd
            refine ⟨?_, hmem a (by simp), hmem b (by simp), hmem c (by simp),
              hmem d (by simp)⟩
            apply String.ext
            simp only [String.data_append]
            rw [← hj]
            simp [List.intercalate, List.intersperse]

end strings

namespace fmt

theorem digitChar_isDigit : ∀ d, d < 10 → (Nat.digitChar d).isDigit = true := by
  decide

theorem toDigitsCore_isDigit (fuel : Nat) :
    ∀ (n : Nat) (ds : List Char), (∀ c ∈ ds, c.isDigit = true) →
      ∀ c ∈ Nat.toDigitsCore 10 fuel n ds, c.isDigit = true := by
  induction fuel with
  | zero => intro n ds hds c hc; exact hds c (by simpa [Nat.toDigitsCore] using hc)
  | succ f ih =>
    intro n ds hds c hc
    have hd : (Nat.digitChar (n % 10)).isDigit = true :=
      digitChar_isDigit _ (Nat.mod_lt _ (by decide))
    have hds2 : ∀ c ∈ Nat.digitChar (n % 10) :: ds, c.isDigit = true := by
      intro c hc
      rcases List.mem_cons.mp hc with rfl | hc
      · exact hd
      · exact hds c hc
    simp only [Nat.toDigitsCore] at hc
    split at hc
    · exact hds2 c hc
    · exact ih _ _ hds2 c hc

/-- The decimal rendering consists of digits, after a possible minus sign. -/
theorem decimal_chars (i : Int) (c : Char) (hc : c ∈ (decimal i).data) :
    c = '-' ∨ c.isDigit = true := by
  cases i with
  | ofNat n =>
    right
    exact toDigitsCore_isDigit (n + 1) n [] (fun _ h => absurd h (List.not_mem_nil _)) c
      (by simpa [decimal, Nat.toDigits] using hc)
  | negSucc n =>
    simp only [decimal, List.mem_cons] at hc
    rcases hc with rfl | hc
    · left; rfl
    · right
      exact toDigitsCore_isDigit (n + 1 + 1) (n + 1) [] (fun _ h => absurd h (List.not_mem_nil _)) c
        (by simpa [Nat.toDigits] using hc)

/-- The decimal rendering has no dot. -/
theorem decimal_no_dot (i : Int) : '.' ∉ (decimal i).data := by
  intro h
  rcases decimal_chars i _ h with h | h
  · exact absurd h (by decide)
  · exact absurd h (by decide)

/-- The decimal rendering has no slash. -/
theorem decimal_no_slash (i : Int) : '/' ∉ (decimal i).data := by
  intro h
  rcases decimal_chars i _ h with h | h
  · exact absurd h (by decide)
  · exact absurd h (by decide)

end fmt

/-! ## CIDR derivation -/

theorem addressPart_append (x m : String) (hm : '/' ∉ m.data) :
    addressPart (x ++ "/" ++ m) = x := by
  have hd : (x ++ "/" ++ m).data.reverse = m.data.reverse ++ '/' :: x.data.reverse := by
    simp [String.data_append]
  have hdrop : (m.data.reverse ++ '/' :: x.data.reverse).dropWhile (· ≠ '/')
      = '/' :: x.data.reverse := by
    rw [List.dropWhile_append_of_pos]
    · simp [List.dropWhile]
    · intro c hc
      have : c ≠ '/' := fun e => hm (by simpa [e] using hc)
      simpa using this
  unfold addressPart
  rw [hd, hdrop]
  simp

/-- The result of `computePoolCIDR` from the pieces of the address. -/
theorem computePoolCIDR_of_split (ip p0 p1 p2 p3 : String) (poolOffset poolMask : Int)
    (h : strings.Split ip '.' = [p0, p1, p2, p3]) :
    computePoolCIDR ip poolOffset poolMask =
      (p0 ++ "." ++ p1 ++ ".255." ++ fmt.decimal poolOffset ++ "/" ++ fmt.decimal poolMask,
        none) := by
  simp [computePoolCIDR, h]

/-- The result of `computePoolCIDR` when the address does not have four pieces. -/
theorem computePoolCIDR_of_length_ne (ip : String) (poolOffset poolMask : Int)
    (h : (strings.Split ip '.').length ≠ 4) :
    computePoolCIDR ip poolOffset poolMask =
      ("", some ("invalid IP address format: " ++ ip)) := by
  simp [computePoolCIDR, h]

/-- A list of four elements, spelled out. -/
theorem eq_four_of_length {α : Type} (l : List α) (d : α) (h : l.length = 4) :
    l = [l.getD 0 d, l.getD 1 d, l.getD 2 d, l.getD 3 d] := by
  match l, h with
  | [_, _, _, _], _ => rfl

/-- C2: an address made of four dot-free components `p0.p1.p2.p3` is turned into
`p0.p1.255.<offset>/<mask>`, without error: the first two components are kept verbatim,
whatever they are, the third becomes the literal 255 and the fourth the offset. -/
theorem computePoolCIDR_dotted_quad (p0 p1 p2 p3 : String) (poolOffset poolMask : Int)
    (h0 : '.' ∉ p0.data) (h1 : '.' ∉ p1.data) (h2 : '.' ∉ p2.data) (h3 : '.' ∉ p3.data) :
    computePoolCIDR (p0 ++ "." ++ p1 ++ "." ++ p2 ++ "." ++ p3) poolOffset poolMask =
      (p0 ++ "." ++ p1 ++ ".255." ++ fmt.decimal poolOffset ++ "/" ++ fmt.decimal poolMask,
        none) :=
  computePoolCIDR_of_split _ p0 p1 p2 p3 poolOffset poolMask
    (strings.Split_dotted p0 p1 p2 p3 h0 h1 h2 h3)

/-- C2 at `192.168.1.100` with the default offset and mask: `192.168.255.200/29`. -/
theorem computePoolCIDR_dotted_quad_witness :
    ('.' ∉ "192".data ∧ '.' ∉ "168".data ∧ '.' ∉ "1".data ∧ '.' ∉ "100".data) ∧
    "192" ++ "." ++ "168" ++ "." ++ "1" ++ "." ++ "100" = "192.168.1.100" ∧
    computePoolCIDR "192.168.1.100" Flags.defaults.poolOffset Flags.defaults.poolMask =
      ("192.168.255.200/29", none) :=
  ⟨by decide, by decide,
    computePoolCIDR_dotted_quad "192" "168" "1" "100" 200 29 (by decide) (by decide)
      (by decide) (by decide)⟩

/-- C3: `computePoolCIDR` fails exactly when the address does not contain exactly three
dots, and then returns the empty string with the invalid-format error; so it fails on
`192.168.1`, on the empty string, on `not-an-ip` and on `192.168.1.1.1`. -/
theorem computePoolCIDR_fails_iff :
    (∀ (ip : String) (poolOffset poolMask : Int),
      ((computePoolCIDR ip poolOffset poolMask).2 ≠ none ↔ ip.data.count '.' ≠ 3) ∧
      (ip.data.count '.' ≠ 3 →
        computePoolCIDR ip poolOffset poolMask =
          ("", some ("invalid IP address format: " ++ ip)))) ∧
    (∀ (poolOffset poolMask : Int),
      computePoolCIDR "192.168.1" poolOffset poolMask =
        ("", some "invalid IP address format: 192.168.1") ∧
      computePoolCIDR "" poolOffset poolMask = ("", some "invalid IP address format: ") ∧
      computePoolCIDR "not-an-ip" poolOffset poolMask =
        ("", some "invalid IP address format: not-an-ip") ∧
      computePoolCIDR "192.168.1.1.1" poolOffset poolMask =
        ("", some "invalid IP address format: 192.168.1.1.1")) := by
  have key : ∀ (ip : String) (poolOffset poolMask : Int), ip.data.count '.' ≠ 3 →
      computePoolCIDR ip poolOffset poolMask =
        ("", some ("invalid IP address format: " ++ ip)) := by
    intro ip o m h
    apply computePoolCIDR_of_length_ne
    rw [strings.Split_length]
    omega
  refine ⟨fun ip o m => ⟨⟨fun hfail hcount => ?_, fun hcount => ?_⟩, key ip o m⟩,
    fun o m => ⟨key _ o m (by decide), key _ o m (by decide), key _ o m (by decide),
      key _ o m (by decide)⟩⟩
  · have hlen : (strings.Split ip '.').length = 4 := by
      rw [strings.Split_length, hcount]
    apply hfail
    simp [computePoolCIDR, hlen]
  · rw [key ip o m hcount]
    simp

/-- C4, refuted as stated: `...` has four components, all of them empty, and
`computePoolCIDR` accepts it. -/
theorem computePoolCIDR_empty_components_accepted :
    strings.Split "..." '.' = ["", "", "", ""] ∧
    computePoolCIDR "..." 200 29 = ("..255.200/29", none) := by
  decide

/-- C4, amended: `computePoolCIDR` validates the number of components only. An address
with an empty component fails with the invalid-format error exactly when it does not have
four components; with four components it succeeds, the empty ones among the first two
being kept as they are. -/
theorem computePoolCIDR_empty_components (ip : String) (poolOffset poolMask : Int)
    (_hempty : "" ∈ strings.Split ip '.') :
    (computePoolCIDR ip poolOffset poolMask =
        ("", some ("invalid IP address format: " ++ ip)) ↔
      (strings.Split ip '.').length ≠ 4) ∧
    ((strings.Split ip '.').length = 4 →
      computePoolCIDR ip poolOffset poolMask =
        ((strings.Split ip '.').getD 0 "" ++ "." ++ (strings.Split ip '.').getD 1 "" ++
          ".255." ++ fmt.decimal poolOffset ++ "/" ++ fmt.decimal poolMask, none)) := by
  have hok : (strings.Split ip '.').length = 4 →
      computePoolCIDR ip poolOffset poolMask =
        ((strings.Split ip '.').getD 0 "" ++ "." ++ (strings.Split ip '.').getD 1 "" ++
          ".255." ++ fmt.decimal poolOffset ++ "/" ++ fmt.decimal poolMask, none) := by
    intro hlen
    simp [computePoolCIDR, hlen]
  refine ⟨⟨fun hfail hlen => ?_, computePoolCIDR_of_length_ne ip poolOffset poolMask⟩, hok⟩
  rw [hok hlen] at hfail
  simp at hfail

/-- C4, amended, at `1..3.4`, `192.168.1.` and `1..3`. -/
theorem computePoolCIDR_empty_components_witness :
    "" ∈ strings.Split "1..3.4" '.' ∧
    computePoolCIDR "1..3.4" 200 29 = ("1..255.200/29", none) ∧
    computePoolCIDR "192.168.1." 200 29 = ("192.168.255.200/29", none) ∧
    computePoolCIDR "1..3" 200 29 = ("", some "invalid IP address format: 1..3") :=
  ⟨by decide,
    (computePoolCIDR_empty_components "1..3.4" 200 29 (by decide)).2 (by decide),
    (computePoolCIDR_empty_components "192.168.1." 200 29 (by decide)).2 (by decide),
    (computePoolCIDR_empty_components "1..3" 200 29 (by decide)).1.2 (by decide)⟩

/-- C9, refuted as stated: from `192.168.1.100` with offset 200 the third component of
the address part is `255`, which is not the decimal rendering of the offset. -/
theorem computePoolCIDR_third_component_not_offset :
    (strings.Split (addressPart (computePoolCIDR "192.168.1.100" 200 29).1) '.').get? 2
      = some "255" ∧
    "255" ≠ fmt.decimal 200 := by
  decide

/-- C9, amended: for an address of four components the address part of the result has
four components, the first two of the address, then the literal `255`, then the decimal
rendering of the offset: the offset is the fourth octet, the third is always 255. -/
theorem computePoolCIDR_address_components (ip : String) (poolOffset poolMask : Int)
    (h : (strings.Split ip '.').length = 4) :
    strings.Split (addressPart (computePoolCIDR ip poolOffset poolMask).1) '.' =
      [(strings.Split ip '.').getD 0 "", (strings.Split ip '.').getD 1 "", "255",
        fmt.decimal poolOffset] := by
  have h4 := eq_four_of_length (strings.Split ip '.') "" h
  generalize (strings.Split ip '.').getD 0 "" = p0 at h4 ⊢
  generalize (strings.Split ip '.').getD 1 "" = p1 at h4 ⊢
  generalize (strings.Split ip '.').getD 2 "" = p2 at h4 ⊢
  generalize (strings.Split ip '.').getD 3 "" = p3 at h4 ⊢
  obtain ⟨-, h0, h1, -, -⟩ := strings.Split_eq_four ip p0 p1 p2 p3 h4
  rw [computePoolCIDR_of_split ip p0 p1 p2 p3 poolOffset poolMask h4]
  show strings.Split (addressPart (p0 ++ "." ++ p1 ++ ".255." ++ fmt.decimal poolOffset
    ++ "/" ++ fmt.decimal poolMask)) '.' = _
  rw [addressPart_append _ _ (fmt.decimal_no_slash poolMask)]
  have hx : p0 ++ "." ++ p1 ++ ".255." ++ fmt.decimal poolOffset
      = p0 ++ "." ++ p1 ++ "." ++ "255" ++ "." ++ fmt.decimal poolOffset := by
    apply String.ext
    simp [String.data_append]
  rw [hx]
  exact strings.Split_dotted p0 p1 "255" (fmt.decimal poolOffset) h0 h1 (by decide)
    (fmt.decimal_no_dot poolOffset)

/-- C9, amended, at `192.168.1.100` with offset 200 and mask 29. -/
theorem computePoolCIDR_address_components_witness :
    (strings.Split "192.168.1.100" '.').length = 4 ∧
    strings.Split (addressPart (computePoolCIDR "192.168.1.100" 200 29).1) '.' =
      ["192", "168", "255", "200"] :=
  ⟨by decide, computePoolCIDR_address_components "192.168.1.100" 200 29 (by decide)⟩

/-! ## Extraction -/

/-- The address loop returns the first entry of type `InternalIP`. -/
theorem scanAddresses_first (pre post : List NodeAddress) (addr : NodeAddress)
    (hpre : ∀ a ∈ pre, a.Type_ ≠ "InternalIP") (htype : addr.Type_ = "InternalIP") :
    scanAddresses (pre ++ addr :: post) = some addr.Address := by
  induction pre with
  | nil => simp [scanAddresses, htype]
  | cons x xs ih =>
    have hx : x.Type_ ≠ "InternalIP" := hpre x (by simp)
    have hxs : ∀ a ∈ xs, a.Type_ ≠ "InternalIP" := fun a ha => hpre a (by simp [ha])
    simp [scanAddresses, hx, ih hxs]

/-- The address loop runs to its end when no entry has type `InternalIP`. -/
theorem scanAddresses_none (l : List NodeAddress)
    (h : ∀ a ∈ l, a.Type_ ≠ "InternalIP") : scanAddresses l = none := by
  induction l with
  | nil => rfl
  | cons x xs ih =>
    have hx : x.Type_ ≠ "InternalIP" := h x (by simp)
    have hxs : ∀ a ∈ xs, a.Type_ ≠ "InternalIP" := fun a ha => h a (by simp [ha])
    simp [scanAddresses, hx, ih hxs]

/-- The node loop runs to its end when no entry of any node has type `InternalIP`. -/
theorem scanNodes_none (l : List Node)
    (h : ∀ n ∈ l, ∀ a ∈ n.Status.Addresses.elems, a.Type_ ≠ "InternalIP") :
    scanNodes l = none := by
  induction l with
  | nil => rfl
  | cons x xs ih =>
    have hx := scanAddresses_none _ (h x (by simp))
    have hxs : ∀ n ∈ xs, ∀ a ∈ n.Status.Addresses.elems, a.Type_ ≠ "InternalIP" :=
      fun n hn => h n (by simp [hn])
    simp [scanNodes, hx, ih hxs]

/-- The node loop returns the first `InternalIP` entry of the first node that has one. -/
theorem scanNodes_first (before after : List Node) (node : Node)
    (pre post : List NodeAddress) (addr : NodeAddress)
    (hbefore : ∀ n ∈ before, ∀ a ∈ n.Status.Addresses.elems, a.Type_ ≠ "InternalIP")
    (haddrs : node.Status.Addresses.elems = pre ++ addr :: post)
    (hpre : ∀ a ∈ pre, a.Type_ ≠ "InternalIP") (htype : addr.Type_ = "InternalIP") :
    scanNodes (before ++ node :: after) = some addr.Address := by
  induction before with
  | nil => simp [scanNodes, haddrs, scanAddresses_first pre post addr hpre htype]
  | cons x xs ih =>
    have hx := scanAddresses_none _ (hbefore x (by simp))
    have hxs : ∀ n ∈ xs, ∀ a ∈ n.Status.Addresses.elems, a.Type_ ≠ "InternalIP" :=
      fun n hn => hbefore n (by simp [hn])
    simp [scanNodes, hx, ih hxs]

/-- A list with an element satisfying `p` splits at the first such element. -/
theorem exists_first_split {α : Type} (p : α → Prop) (l : List α) (h : ∃ x ∈ l, p x) :
    ∃ pre x post, l = pre ++ x :: post ∧ (∀ y ∈ pre, ¬ p y) ∧ p x := by
  induction l with
  | nil => simp at h
  | cons y ys ih =>
    by_cases hy : p y
    · exact ⟨[], y, ys, rfl, by simp, hy⟩
    · have hys : ∃ x ∈ ys, p x := by
        obtain ⟨x, hx, hpx⟩ := h
        rcases List.mem_cons.mp hx with rfl | hx
        · exact absurd hpx hy
        · exact ⟨x, hx, hpx⟩
      obtain ⟨pre, x, post, hl, hpre, hx⟩ := ih hys
      refine ⟨y :: pre, x, post, by simp [hl], ?_, hx⟩
      intro z hz
      rcases List.mem_cons.mp hz with rfl | hz
      · exact hy
      · exact hpre z hz

/-- C1: when the data decodes as a `NodeList` whose items hold at least one entry of
type `InternalIP`, `extractInternalIP` returns, without error, the address of the first
such entry in document order: the items split into the nodes `before`, the node of the
entry and the nodes `after`, the addresses of that node into `pre`, the entry and `post`,
where no node of `before` and no entry of `pre` has the type `InternalIP`; what comes after
the entry, in its node or in later nodes, does not matter. -/
theorem extractInternalIP_nodeList_first (data : Data) (nodeList : NodeList)
    (hdecode : unmarshalNodeList data = some nodeList)
    (hexists : ∃ n ∈ nodeList.Items.elems, ∃ a ∈ n.Status.Addresses.elems,
      a.Type_ = "InternalIP") :
    ∃ (before : List Node) (node : Node) (after : List Node)
      (pre : List NodeAddress) (addr : NodeAddress) (post : List NodeAddress),
      nodeList.Items.elems = before ++ node :: after ∧
      (∀ n ∈ before, ∀ a ∈ n.Status.Addresses.elems, a.Type_ ≠ "InternalIP") ∧
      node.Status.Addresses.elems = pre ++ addr :: post ∧
      (∀ a ∈ pre, a.Type_ ≠ "InternalIP") ∧
      addr.Type_ = "InternalIP" ∧
      extractInternalIP data = (addr.Address, none) := by
  obtain ⟨before, node, after, hitems, hbefore, hnode⟩ :=
    exists_first_split (fun n : Node => ∃ a ∈ n.Status.Addresses.elems, a.Type_ = "InternalIP")
      nodeList.Items.elems hexists
  obtain ⟨pre, addr, post, haddrs, hpre, htype⟩ :=
    exists_first_split (fun a : NodeAddress => a.Type_ = "InternalIP")
      node.Status.Addresses.elems hnode
  have hbefore2 : ∀ n ∈ before, ∀ a ∈ n.Status.Addresses.elems, a.Type_ ≠ "InternalIP" :=
    fun n hn a ha e => hbefore n hn ⟨a, ha, e⟩
  refine ⟨before, node, after, pre, addr, post, hitems, hbefore2, haddrs, hpre, htype, ?_⟩
  have hscan := scanNodes_first before after node pre post addr hbefore2 haddrs hpre htype
  simp [extractInternalIP, tryNodeList, hdecode, hitems, hscan]

/-- C1 on the test inputs: items with `172.18.0.3` then `172.18.0.2` give `172.18.0.3`,
and one record with `10.0.0.1` then `10.0.0.2` gives `10.0.0.1`. -/
theorem extractInternalIP_nodeList_first_witness :
    (extractInternalIP nodeListJson = ("172.18.0.3", none) ∧
      ∃ addr : NodeAddress, addr.Type_ = "InternalIP" ∧
        extractInternalIP nodeListJson = (addr.Address, none)) ∧
    (extractInternalIP multipleIPsJson = ("10.0.0.1", none) ∧
      ∃ addr : NodeAddress, addr.Type_ = "InternalIP" ∧
        extractInternalIP multipleIPsJson = (addr.Address, none)) :=
  ⟨⟨by decide,
      (extractInternalIP_nodeList_first nodeListJson
        ⟨⟨[⟨⟨⟨[⟨"InternalIP", "172.18.0.3"⟩], []⟩⟩⟩, ⟨⟨⟨[⟨"InternalIP", "172.18.0.2"⟩], []⟩⟩⟩],
          []⟩⟩
        rfl (by decide)).elim
        fun _ h => h.elim fun _ h => h.elim fun _ h => h.elim fun _ h => h.elim
          fun addr h => h.elim fun _ h => ⟨addr, h.2.2.2.2.1, h.2.2.2.2.2⟩⟩,
    ⟨by decide,
      (extractInternalIP_nodeList_first multipleIPsJson
        ⟨⟨[⟨⟨⟨[⟨"InternalIP", "10.0.0.1"⟩, ⟨"InternalIP", "10.0.0.2"⟩], []⟩⟩⟩], []⟩⟩
        rfl (by decide)).elim
        fun _ h => h.elim fun _ h => h.elim fun _ h => h.elim fun _ h => h.elim
          fun addr h => h.elim fun _ h => ⟨addr, h.2.2.2.2.1, h.2.2.2.2.2⟩⟩⟩

/-- C5: when the data holds no non-empty `items` collection (decoding it as a `NodeList`
fails or leaves no item) and decodes as a `SingleNode` whose addresses hold at least one
entry of type `InternalIP`, `extractInternalIP` returns, without error, the address of the
first such entry in list order: the addresses split into `pre`, the entry and `post`,
where no entry of `pre` has the type `InternalIP`. -/
theorem extractInternalIP_singleNode_first (data : Data) (singleNode : SingleNode)
    (hnolist : ∀ nodeList ∈ unmarshalNodeList data, nodeList.Items.elems.length = 0)
    (hdecode : unmarshalSingleNode data = some singleNode)
    (hexists : ∃ a ∈ singleNode.Status.Addresses.elems, a.Type_ = "InternalIP") :
    ∃ (pre : List NodeAddress) (addr : NodeAddress) (post : List NodeAddress),
      singleNode.Status.Addresses.elems = pre ++ addr :: post ∧
      (∀ a ∈ pre, a.Type_ ≠ "InternalIP") ∧
      addr.Type_ = "InternalIP" ∧
      extractInternalIP data = (addr.Address, none) := by
  obtain ⟨pre, addr, post, haddrs, hpre, htype⟩ :=
    exists_first_split (fun a : NodeAddress => a.Type_ = "InternalIP")
      singleNode.Status.Addresses.elems hexists
  refine ⟨pre, addr, post, haddrs, hpre, htype, ?_⟩
  have hfirst : tryNodeList data = none := by
    unfold tryNodeList
    cases hl : unmarshalNodeList data with
    | none => rfl
    | some nl => simp [hnolist nl hl]
  have hscan := scanAddresses_first pre post addr hpre htype
  simp [extractInternalIP, hfirst, trySingleNode, hdecode, haddrs, hscan]

/-- C5 on the test input: addresses `192.168.1.100` of type `InternalIP`, then
`test-node` of type `Hostname`, give `192.168.1.100`; and with the two entries swapped
the `Hostname` entry is skipped. -/
theorem extractInternalIP_singleNode_first_witness :
    (extractInternalIP singleNodeJson = ("192.168.1.100", none) ∧
      ∃ addr : NodeAddress, addr.Type_ = "InternalIP" ∧
        extractInternalIP singleNodeJson = (addr.Address, none)) ∧
    (extractInternalIP hostnameFirstJson = ("192.168.1.100", none) ∧
      ∃ addr : NodeAddress, addr.Type_ = "InternalIP" ∧
        extractInternalIP hostnameFirstJson = (addr.Address, none)) :=
  ⟨⟨by decide,
      (extractInternalIP_singleNode_first singleNodeJson
        ⟨⟨⟨[⟨"InternalIP", "192.168.1.100"⟩, ⟨"Hostname", "test-node"⟩], []⟩⟩⟩
        (by decide) rfl (by decide)).elim
        fun _ h => h.elim fun addr h => h.elim fun _ h => ⟨addr, h.2.2.1, h.2.2.2⟩⟩,
    ⟨by decide,
      (extractInternalIP_singleNode_first hostnameFirstJson
        ⟨⟨⟨[⟨"Hostname", "test-node"⟩, ⟨"InternalIP", "192.168.1.100"⟩], []⟩⟩⟩
        (by decide) rfl (by decide)).elim
        fun _ h => h.elim fun addr h => h.elim fun _ h => ⟨addr, h.2.2.1, h.2.2.2⟩⟩⟩

/-- C6: a well-formed input in which no address entry has the type `InternalIP`
(compared exactly, case included), neither in a record of `items` nor among the top-level
addresses, makes `extractInternalIP` fail: it returns the empty string and an error. -/
theorem extractInternalIP_no_internalIP (doc : Json)
    (hlist : ∀ nodeList ∈ unmarshalNodeList (.document doc),
      ∀ n ∈ nodeList.Items.elems, ∀ a ∈ n.Status.Addresses.elems, a.Type_ ≠ "InternalIP")
    (hsingle : ∀ singleNode ∈ unmarshalSingleNode (.document doc),
      ∀ a ∈ singleNode.Status.Addresses.elems, a.Type_ ≠ "InternalIP") :
    extractInternalIP (.document doc) = ("", some "could not find InternalIP in nodes data") := by
  have hfirst : tryNodeList (.document doc) = none := by
    unfold tryNodeList
    cases hl : unmarshalNodeList (.document doc) with
    | none => rfl
    | some nl => simp [scanNodes_none _ (hlist nl hl)]
  have hsecond : trySingleNode (.document doc) = none := by
    unfold trySingleNode
    cases hs : unmarshalSingleNode (.document doc) with
    | none => rfl
    | some sn => simp [scanAddresses_none _ (hsingle sn hs)]
  simp [extractInternalIP, hfirst, hsecond]

/-- C6 on a record with `Hostname` and `ExternalIP` addresses only, on the empty object,
on the empty collection, and on a record whose only address has the type `internalip`. -/
theorem extractInternalIP_no_internalIP_witness :
    extractInternalIP (.document noInternalIPJson)
      = ("", some "could not find InternalIP in nodes data") ∧
    extractInternalIP (.document (.object []))
      = ("", some "could not find InternalIP in nodes data") ∧
    extractInternalIP (.document (.object [("items", .array [])]))
      = ("", some "could not find InternalIP in nodes data") ∧
    extractInternalIP (.document (nodeRecord [addressEntry "10.0.0.1" "internalip"]))
      = ("", some "could not find InternalIP in nodes data") :=
  ⟨extractInternalIP_no_internalIP noInternalIPJson (by decide) (by decide),
    extractInternalIP_no_internalIP (.object []) (by decide) (by decide),
    extractInternalIP_no_internalIP (.object [("items", .array [])]) (by decide) (by decide),
    extractInternalIP_no_internalIP (nodeRecord [addressEntry "10.0.0.1" "internalip"])
      (by decide) (by decide)⟩

/-- C7: on bytes that are not well-formed JSON both calls of `json.Unmarshal` fail, and
`extractInternalIP` returns the empty string and an error; the same holds for any input on
which both calls fail. -/
theorem extractInternalIP_malformed :
    unmarshalNodeList Data.malformed = none ∧
    unmarshalSingleNode Data.malformed = none ∧
    extractInternalIP Data.malformed = ("", some "could not find InternalIP in nodes data") ∧
    (∀ data : Data, unmarshalNodeList data = none ∧ unmarshalSingleNode data = none →
      extractInternalIP data = ("", some "could not find InternalIP in nodes data")) := by
  refine ⟨rfl, rfl, rfl, fun data h => ?_⟩
  simp [extractInternalIP, tryNodeList, trySingleNode, h.1, h.2]

/-! ## Rendering -/

/-- The parsed form of `poolTemplate`. -/
theorem Parse_poolTemplate :
    template.Parse poolTemplate = some
      [.text "apiVersion: cilium.io/v2alpha1\nkind: CiliumLoadBalancerIPPool\nmetadata:\n  name: ".data,
       .field "PoolName".data,
       .text "\nspec:\n  blocks:\n  - cidr: ".data,
       .field "PoolCIDR".data,
       .text "\n".data] := by
  decide

/-- Executing the parsed `poolTemplate` puts the two values into the fixed text. -/
theorem Execute_poolTemplate (name cidr : String) :
    template.Execute (PoolConfig.lookup { PoolName := name, PoolCIDR := cidr })
      [.text "apiVersion: cilium.io/v2alpha1\nkind: CiliumLoadBalancerIPPool\nmetadata:\n  name: ".data,
       .field "PoolName".data,
       .text "\nspec:\n  blocks:\n  - cidr: ".data,
       .field "PoolCIDR".data,
       .text "\n".data] =
      ("apiVersion: cilium.io/v2alpha1\nkind: CiliumLoadBalancerIPPool\nmetadata:\n  name: "
        ++ name ++ "\nspec:\n  blocks:\n  - cidr: " ++ cidr ++ "\n", none) := by
  have hn : PoolConfig.lookup { PoolName := name, PoolCIDR := cidr } "PoolName".data
      = some name := by simp [PoolConfig.lookup]
  have hc : PoolConfig.lookup { PoolName := name, PoolCIDR := cidr } "PoolCIDR".data
      = some cidr := by
    have hne : "PoolCIDR".data ≠ "PoolName".data := by decide
    simp [PoolConfig.lookup, hne]
  simp only [template.Execute, hn, hc, String.append_assoc, String.append_empty]

/-- C8: for every pool name and CIDR, `poolTemplate` parses and its execution on
`PoolConfig` with these values has no error and writes the fixed document with the two
values put in as they are; nothing else in the document varies. With the name
`test-pool` and the CIDR `192.168.255.200/29` this is the document of the test. -/
theorem poolTemplate_renders :
    (∀ name cidr : String, ∃ tmpl, template.Parse poolTemplate = some tmpl ∧
      template.Execute (PoolConfig.lookup { PoolName := name, PoolCIDR := cidr }) tmpl =
        ("apiVersion: cilium.io/v2alpha1\nkind: CiliumLoadBalancerIPPool\nmetadata:\n  name: "
          ++ name ++ "\nspec:\n  blocks:\n  - cidr: " ++ cidr ++ "\n", none)) ∧
    (∃ tmpl, template.Parse poolTemplate = some tmpl ∧
      template.Execute
        (PoolConfig.lookup { PoolName := "test-pool", PoolCIDR := "192.168.255.200/29" }) tmpl =
        ("apiVersion: cilium.io/v2alpha1\nkind: CiliumLoadBalancerIPPool\nmetadata:\n  name: test-pool\nspec:\n  blocks:\n  - cidr: 192.168.255.200/29\n",
          none)) :=
  ⟨fun name cidr => ⟨_, Parse_poolTemplate, Execute_poolTemplate name cidr⟩,
    ⟨_, Parse_poolTemplate, Execute_poolTemplate "test-pool" "192.168.255.200/29"⟩⟩

/-! ## End to end -/

/-- A run of `main` to standard output, on a nodes file from which an address is
extracted and a CIDR derived, with a standard output that takes what is written: it exits
with 0 and the rendered document is what was written. -/
theorem main_stdout (env : Env) (flags : Flags) (data : Data) (internalIP poolCIDR : String)
    (hnodes : flags.nodesFile ≠ "") (hname : flags.poolName ≠ "")
    (hout : flags.outputFile = "-")
    (hread : env.ReadFile flags.nodesFile = .ok data)
    (hextract : extractInternalIP data = (internalIP, none))
    (hcidr : computePoolCIDR internalIP flags.poolOffset flags.poolMask = (poolCIDR, none))
    (hwrite : ∀ text, env.Write none text = (text, none)) :
    main env flags =
      { exitCode := 0, stderr := "",
        stdout := "apiVersion: cilium.io/v2alpha1\nkind: CiliumLoadBalancerIPPool\nmetadata:\n  name: "
          ++ flags.poolName ++ "\nspec:\n  blocks:\n  - cidr: " ++ poolCIDR ++ "\n",
        created := none, fileData := "" } := by
  have hexec := Execute_poolTemplate flags.poolName poolCIDR
  unfold main
  rw [if_neg (by simp [hnodes, hname])]
  simp only [hread, hextract, hcidr, Parse_poolTemplate, hexec, hout, hwrite, if_true]
  rfl

/-! ## Relations between runs of the CIDR derivation -/

/-- The pieces of a derived CIDR: the first two pieces of the address, `255`, and the
offset with the mask behind it. -/
theorem Split_derived (p0 p1 : String) (poolOffset poolMask : Int)
    (h0 : '.' ∉ p0.data) (h1 : '.' ∉ p1.data) :
    strings.Split (p0 ++ "." ++ p1 ++ ".255." ++ fmt.decimal poolOffset ++ "/" ++
        fmt.decimal poolMask) '.' =
      [p0, p1, "255", fmt.decimal poolOffset ++ "/" ++ fmt.decimal poolMask] := by
  have hlast : '.' ∉ (fmt.decimal poolOffset ++ "/" ++ fmt.decimal poolMask).data := by
    intro h
    simp only [String.data_append, List.mem_append] at h
    rcases h with (h | h) | h
    · exact fmt.decimal_no_dot poolOffset h
    · exact absurd h (by decide)
    · exact fmt.decimal_no_dot poolMask h
  have hx : p0 ++ "." ++ p1 ++ ".255." ++ fmt.decimal poolOffset ++ "/" ++ fmt.decimal poolMask
      = p0 ++ "." ++ p1 ++ "." ++ "255" ++ "." ++
        (fmt.decimal poolOffset ++ "/" ++ fmt.decimal poolMask) := by
    apply String.ext
    simp [String.data_append]
  rw [hx]
  exact strings.Split_dotted p0 p1 "255" _ h0 h1 (by decide) hlast

/-- A successful derivation comes from an address of four pieces. -/
theorem split_of_computePoolCIDR_ok (ip c : String) (poolOffset poolMask : Int)
    (h : computePoolCIDR ip poolOffset poolMask = (c, none)) :
    (strings.Split ip '.').length = 4 := by
  by_contra hlen
  rw [computePoolCIDR_of_length_ne ip poolOffset poolMask hlen] at h
  simp at h

/-- C14: `computePoolCIDR` is idempotent on its own output. When it succeeds on `ip` with
the result `c`, it succeeds on `c`, with the same offset and mask, and returns `c`
again. -/
theorem computePoolCIDR_idempotent (ip c : String) (poolOffset poolMask : Int)
    (h : computePoolCIDR ip poolOffset poolMask = (c, none)) :
    computePoolCIDR c poolOffset poolMask = (c, none) := by
  have hlen := split_of_computePoolCIDR_ok ip c poolOffset poolMask h
  have h4 := eq_four_of_length (strings.Split ip '.') "" hlen
  generalize (strings.Split ip '.').getD 0 "" = p0 at h4
  generalize (strings.Split ip '.').getD 1 "" = p1 at h4
  generalize (strings.Split ip '.').getD 2 "" = p2 at h4
  generalize (strings.Split ip '.').getD 3 "" = p3 at h4
  obtain ⟨-, h0, h1, -, -⟩ := strings.Split_eq_four ip p0 p1 p2 p3 h4
  rw [computePoolCIDR_of_split ip p0 p1 p2 p3 poolOffset poolMask h4] at h
  have hc : c = p0 ++ "." ++ p1 ++ ".255." ++ fmt.decimal poolOffset ++ "/" ++
      fmt.decimal poolMask := (Prod.mk.inj h).1.symm
  rw [hc]
  exact computePoolCIDR_of_split _ p0 p1 "255"
    (fmt.decimal poolOffset ++ "/" ++ fmt.decimal poolMask) poolOffset poolMask
    (Split_derived p0 p1 poolOffset poolMask h0 h1)

/-- C14 at `192.168.1.100` with offset 200 and mask 29, and at `a.b.c.d` with a negative
offset. -/
theorem computePoolCIDR_idempotent_witness :
    computePoolCIDR "192.168.1.100" 200 29 = ("192.168.255.200/29", none) ∧
    computePoolCIDR "192.168.255.200/29" 200 29 = ("192.168.255.200/29", none) ∧
    computePoolCIDR "a.b.255.-7/0" (-7) 0 = ("a.b.255.-7/0", none) :=
  ⟨by decide,
    computePoolCIDR_idempotent "192.168.1.100" "192.168.255.200/29" 200 29 (by decide),
    computePoolCIDR_idempotent "a.b.c.d" "a.b.255.-7/0" (-7) 0 (by decide)⟩

/-- C15: the derived CIDR depends on the first two components of the address only. Two
addresses of four components each that agree on the first two give the same result, a
success, for every offset and mask, whatever their third and fourth components are. -/
theorem computePoolCIDR_first_two (ip1 ip2 p0 p1 a b c d : String) (poolOffset poolMask : Int)
    (h1 : strings.Split ip1 '.' = [p0, p1, a, b])
    (h2 : strings.Split ip2 '.' = [p0, p1, c, d]) :
    computePoolCIDR ip1 poolOffset poolMask = computePoolCIDR ip2 poolOffset poolMask ∧
    (computePoolCIDR ip1 poolOffset poolMask).2 = none := by
  rw [computePoolCIDR_of_split ip1 p0 p1 a b poolOffset poolMask h1,
    computePoolCIDR_of_split ip2 p0 p1 c d poolOffset poolMask h2]
  exact ⟨rfl, rfl⟩

/-- C15 at `192.168.1.100` and `192.168.77.3`, and at two addresses whose last two
components are empty or not numbers. -/
theorem computePoolCIDR_first_two_witness :
    (strings.Split "192.168.1.100" '.' = ["192", "168", "1", "100"] ∧
      strings.Split "192.168.77.3" '.' = ["192", "168", "77", "3"] ∧
      computePoolCIDR "192.168.1.100" 200 29 = computePoolCIDR "192.168.77.3" 200 29) ∧
    computePoolCIDR "10.0.." 8 24 = computePoolCIDR "10.0.x.y" 8 24 :=
  ⟨⟨by decide, by decide,
      (computePoolCIDR_first_two "192.168.1.100" "192.168.77.3" "192" "168" "1" "100" "77" "3"
        200 29 (by decide) (by decide)).1⟩,
    (computePoolCIDR_first_two "10.0.." "10.0.x.y" "10" "0" "" "" "x" "y" 8 24
      (by decide) (by decide)).1⟩

/-! ## Order of the two interpretations -/

/-- The first part of `extractInternalIP` returns the first `InternalIP` entry of the
decoded items. -/
theorem tryNodeList_first (data : Data) (nodeList : NodeList)
    (before after : List Node) (node : Node) (pre post : List NodeAddress)
    (addr : NodeAddress)
    (hdecode : unmarshalNodeList data = some nodeList)
    (hitems : nodeList.Items.elems = before ++ node :: after)
    (hbefore : ∀ n ∈ before, ∀ a ∈ n.Status.Addresses.elems, a.Type_ ≠ "InternalIP")
    (haddrs : node.Status.Addresses.elems = pre ++ addr :: post)
    (hpre : ∀ a ∈ pre, a.Type_ ≠ "InternalIP") (htype : addr.Type_ = "InternalIP") :
    tryNodeList data = some addr.Address := by
  have hscan := scanNodes_first before after node pre post addr hbefore haddrs hpre htype
  simp [tryNodeList, hdecode, hitems, hscan]

/-- C12, refuted as stated: a well-formed input whose `items` list holds a record with
the internal IP `10.0.0.1`, followed by the number 5, and whose top-level addresses hold
the internal IP `192.168.1.100`. The number is a type error for the `NodeList` decode, the
collection is skipped, and the top-level address is returned. -/
theorem extractInternalIP_items_type_error :
    unmarshalNodeList (.document (.object
      [("items", .array [nodeRecord [addressEntry "10.0.0.1" "InternalIP"], .number "5"]),
       ("status", .object [("addresses", .array
          [addressEntry "192.168.1.100" "InternalIP"])])])) = none ∧
    extractInternalIP (.document (.object
      [("items", .array [nodeRecord [addressEntry "10.0.0.1" "InternalIP"], .number "5"]),
       ("status", .object [("addresses", .array
          [addressEntry "192.168.1.100" "InternalIP"])])])) = ("192.168.1.100", none) ∧
    extractInternalIP (.document (.object
      [("items", .array [nodeRecord [addressEntry "10.0.0.1" "InternalIP"], .number "5"]),
       ("status", .object [("addresses", .array
          [addressEntry "192.168.1.100" "InternalIP"])])])) ≠ ("10.0.0.1", none) := by
  refine ⟨rfl, by decide, by decide⟩

/-- C12, amended: the collection comes first whenever it decodes. When the data decodes
without error as a `NodeList` whose items hold an entry of type `InternalIP`,
`extractInternalIP` returns the address of the first such entry of the items, in document
order, whatever the top-level addresses hold: the address the top-level loop would find,
when it is another one, is not returned. -/
theorem extractInternalIP_items_priority (data : Data) (nodeList : NodeList)
    (hlist : unmarshalNodeList data = some nodeList)
    (hitems : ∃ n ∈ nodeList.Items.elems, ∃ a ∈ n.Status.Addresses.elems,
      a.Type_ = "InternalIP") :
    ∃ (before : List Node) (node : Node) (after : List Node)
      (pre : List NodeAddress) (addr : NodeAddress) (post : List NodeAddress),
      nodeList.Items.elems = before ++ node :: after ∧
      (∀ n ∈ before, ∀ a ∈ n.Status.Addresses.elems, a.Type_ ≠ "InternalIP") ∧
      node.Status.Addresses.elems = pre ++ addr :: post ∧
      (∀ a ∈ pre, a.Type_ ≠ "InternalIP") ∧
      addr.Type_ = "InternalIP" ∧
      extractInternalIP data = (addr.Address, none) ∧
      (∀ singleNode top, unmarshalSingleNode data = some singleNode →
        scanAddresses singleNode.Status.Addresses.elems = some top →
        top ≠ addr.Address → (extractInternalIP data).1 ≠ top) := by
  obtain ⟨before, node, after, hsplit, hbefore, hnode⟩ :=
    exists_first_split (fun n : Node => ∃ a ∈ n.Status.Addresses.elems, a.Type_ = "InternalIP")
      nodeList.Items.elems hitems
  obtain ⟨pre, addr, post, haddrs, hpre, htype⟩ :=
    exists_first_split (fun a : NodeAddress => a.Type_ = "InternalIP")
      node.Status.Addresses.elems hnode
  have hbefore2 : ∀ n ∈ before, ∀ a ∈ n.Status.Addresses.elems, a.Type_ ≠ "InternalIP" :=
    fun n hn a ha e => hbefore n hn ⟨a, ha, e⟩
  have hfirst := tryNodeList_first data nodeList before after node pre post addr hlist hsplit
    hbefore2 haddrs hpre htype
  have hres : extractInternalIP data = (addr.Address, none) := by
    simp [extractInternalIP, hfirst]
  refine ⟨before, node, after, pre, addr, post, hsplit, hbefore2, haddrs, hpre, htype, hres, ?_⟩
  intro _ top _ _ hne
  rw [hres]
  exact fun e => hne e.symm

/-- C12, amended, on an input with the internal IP `10.0.0.1` in its items and
`192.168.1.100` at top level: `10.0.0.1` is returned, although the top-level loop alone
would give `192.168.1.100`. -/
theorem extractInternalIP_items_priority_witness :
    extractInternalIP itemsAndStatusJson = ("10.0.0.1", none) ∧
    (unmarshalSingleNode itemsAndStatusJson).map
      (fun singleNode => scanAddresses singleNode.Status.Addresses.elems)
      = some (some "192.168.1.100") ∧
    ∃ addr : NodeAddress, addr.Type_ = "InternalIP" ∧
      extractInternalIP itemsAndStatusJson = (addr.Address, none) :=
  ⟨by decide, by decide,
    (extractInternalIP_items_priority itemsAndStatusJson
      ⟨⟨[⟨⟨⟨[⟨"InternalIP", "10.0.0.1"⟩], []⟩⟩⟩], []⟩⟩
      rfl (by decide)).elim
      fun _ h => h.elim fun _ h => h.elim fun _ h => h.elim fun _ h => h.elim
        fun addr h => h.elim fun _ h => ⟨addr, h.2.2.2.2.1, h.2.2.2.2.2.1⟩⟩

/-- C13, refuted as stated: a well-formed input whose `items` list is one record with a
`Hostname` address only, and whose top-level addresses hold the internal IP
`192.168.1.100` followed by an entry whose type is the number 5. The number is a type
error for the `SingleNode` decode, the top-level record is skipped as well, and
`extractInternalIP` fails. -/
theorem extractInternalIP_status_type_error :
    (unmarshalNodeList (.document (.object
      [("items", .array [nodeRecord [addressEntry "node-1" "Hostname"]]),
       ("status", .object [("addresses", .array
          [addressEntry "192.168.1.100" "InternalIP",
           .object [("address", .string "x"), ("type", .number "5")]])])]))).map
      (fun nodeList => nodeList.Items.elems.length) = some 1 ∧
    unmarshalSingleNode (.document (.object
      [("items", .array [nodeRecord [addressEntry "node-1" "Hostname"]]),
       ("status", .object [("addresses", .array
          [addressEntry "192.168.1.100" "InternalIP",
           .object [("address", .string "x"), ("type", .number "5")]])])])) = none ∧
    extractInternalIP (.document (.object
      [("items", .array [nodeRecord [addressEntry "node-1" "Hostname"]]),
       ("status", .object [("addresses", .array
          [addressEntry "192.168.1.100" "InternalIP",
           .object [("address", .string "x"), ("type", .number "5")]])])]))
      = ("", some "could not find InternalIP in nodes data") := by
  refine ⟨by decide, rfl, by decide⟩

/-- C13, amended: the fallback after a collection without match. When the items the data
decodes to as a `NodeList`, if it does, are at least one and hold no entry of type
`InternalIP`, and the data decodes without error as a `SingleNode` whose top-level
addresses hold such an entry, `extractInternalIP` does not fail: it returns the address of
the first such entry of the top-level addresses. -/
theorem extractInternalIP_fallback (data : Data) (singleNode : SingleNode)
    (hitems : ∀ nodeList ∈ unmarshalNodeList data,
      nodeList.Items.elems.length > 0 ∧
      ∀ n ∈ nodeList.Items.elems, ∀ a ∈ n.Status.Addresses.elems, a.Type_ ≠ "InternalIP")
    (hsingle : unmarshalSingleNode data = some singleNode)
    (htop : ∃ a ∈ singleNode.Status.Addresses.elems, a.Type_ = "InternalIP") :
    ∃ (pre : List NodeAddress) (addr : NodeAddress) (post : List NodeAddress),
      singleNode.Status.Addresses.elems = pre ++ addr :: post ∧
      (∀ a ∈ pre, a.Type_ ≠ "InternalIP") ∧
      addr.Type_ = "InternalIP" ∧
      extractInternalIP data = (addr.Address, none) := by
  obtain ⟨pre, addr, post, haddrs, hpre, htype⟩ :=
    exists_first_split (fun a : NodeAddress => a.Type_ = "InternalIP")
      singleNode.Status.Addresses.elems htop
  refine ⟨pre, addr, post, haddrs, hpre, htype, ?_⟩
  have hfirst : tryNodeList data = none := by
    unfold tryNodeList
    cases hl : unmarshalNodeList data with
    | none => rfl
    | some nodeList =>
      obtain ⟨hpos, hnone⟩ := hitems nodeList hl
      simp only [hpos, if_true]
      exact scanNodes_none _ hnone
  have hscan := scanAddresses_first pre post addr hpre htype
  simp [extractInternalIP, hfirst, trySingleNode, hsingle, haddrs, hscan]

/-- C13, amended, on an input whose only item has a `Hostname` address and whose
top-level addresses are a `Hostname` entry, then the internal IPs `192.168.1.100` and
`192.168.1.101`: the result is `192.168.1.100`. -/
theorem extractInternalIP_fallback_witness :
    (unmarshalNodeList itemsWithoutMatchJson).map
      (fun nodeList => nodeList.Items.elems.length) = some 1 ∧
    extractInternalIP itemsWithoutMatchJson = ("192.168.1.100", none) ∧
    ∃ addr : NodeAddress, addr.Type_ = "InternalIP" ∧
      extractInternalIP itemsWithoutMatchJson = (addr.Address, none) :=
  ⟨by decide, by decide,
    (extractInternalIP_fallback itemsWithoutMatchJson
      ⟨⟨⟨[⟨"Hostname", "test-node"⟩, ⟨"InternalIP", "192.168.1.100"⟩,
        ⟨"InternalIP", "192.168.1.101"⟩], []⟩⟩⟩
      (by decide) rfl (by decide)).elim
      fun _ h => h.elim fun addr h => h.elim fun _ h => ⟨addr, h.2.2.1, h.2.2.2⟩⟩

/-! ## Injectivity of the rendering -/

/-- Two texts that agree, each cut at a mark its first part does not contain, agree part
by part. -/
theorem append_cons_inj_of_not_mem_both {α : Type} (a : α) (l1 l2 r1 r2 : List α)
    (h1 : a ∉ l1) (h2 : a ∉ l2) (h : l1 ++ a :: r1 = l2 ++ a :: r2) :
    l1 = l2 ∧ r1 = r2 := by
  induction l1 generalizing l2 with
  | nil =>
    cases l2 with
    | nil => simpa using h
    | cons y ys =>
      simp only [List.nil_append, List.cons_append, List.cons.injEq] at h
      exact absurd (by simp [h.1]) h2
  | cons x xs ih =>
    cases l2 with
    | nil =>
      simp only [List.nil_append, List.cons_append, List.cons.injEq] at h
      exact absurd (by simp [h.1]) h1
    | cons y ys =>
      simp only [List.cons_append, List.cons.injEq] at h
      have hx : a ∉ xs := fun e => h1 (List.mem_cons_of_mem _ e)
      have hy : a ∉ ys := fun e => h2 (List.mem_cons_of_mem _ e)
      obtain ⟨e1, e2⟩ := ih ys hx hy h.2
      exact ⟨by rw [h.1, e1], e2⟩

/-- The rendered document determines the name and the CIDR, when the names have no
newline. -/
theorem document_injective (n1 n2 c1 c2 : String)
    (hn1 : '\n' ∉ n1.data) (hn2 : '\n' ∉ n2.data)
    (h : "apiVersion: cilium.io/v2alpha1\nkind: CiliumLoadBalancerIPPool\nmetadata:\n  name: "
          ++ n1 ++ "\nspec:\n  blocks:\n  - cidr: " ++ c1 ++ "\n" =
        "apiVersion: cilium.io/v2alpha1\nkind: CiliumLoadBalancerIPPool\nmetadata:\n  name: "
          ++ n2 ++ "\nspec:\n  blocks:\n  - cidr: " ++ c2 ++ "\n") :
    n1 = n2 ∧ c1 = c2 := by
  have hd := congrArg String.data h
  simp only [String.data_append, List.append_assoc] at hd
  have hd2 := List.append_cancel_left hd
  simp only [List.cons_append, List.nil_append] at hd2
  obtain ⟨e1, e2⟩ := append_cons_inj_of_not_mem_both '\n' _ _ _ _ hn1 hn2 hd2
  have e3 : c1.data = c2.data := by simpa using e2
  exact ⟨String.ext e1, String.ext e3⟩

/-- C16: rendering is injective on newline-free values, and not without that condition.
When two pool names and two CIDR strings have no newline and `poolTemplate` renders the
same document from both pairs, the names are equal and the CIDR strings are equal. Two
different pairs whose values contain newlines render the same document. -/
theorem poolTemplate_injective :
    (∀ n1 n2 c1 c2 : String,
      '\n' ∉ n1.data → '\n' ∉ n2.data → '\n' ∉ c1.data → '\n' ∉ c2.data →
      (∃ tmpl, template.Parse poolTemplate = some tmpl ∧
        (template.Execute (PoolConfig.lookup { PoolName := n1, PoolCIDR := c1 }) tmpl).1 =
          (template.Execute (PoolConfig.lookup { PoolName := n2, PoolCIDR := c2 }) tmpl).1) →
      n1 = n2 ∧ c1 = c2) ∧
    (∃ tmpl, template.Parse poolTemplate = some tmpl ∧
      (template.Execute (PoolConfig.lookup
          { PoolName := "a", PoolCIDR := "x\nspec:\n  blocks:\n  - cidr: y" }) tmpl).1 =
        (template.Execute (PoolConfig.lookup
          { PoolName := "a\nspec:\n  blocks:\n  - cidr: x", PoolCIDR := "y" }) tmpl).1 ∧
      "a" ≠ "a\nspec:\n  blocks:\n  - cidr: x" ∧
      "x\nspec:\n  blocks:\n  - cidr: y" ≠ "y") := by
  constructor
  · intro n1 n2 c1 c2 hn1 hn2 _ _ hsame
    obtain ⟨tmpl, hparse, hdoc⟩ := hsame
    rw [Parse_poolTemplate] at hparse
    cases hparse
    rw [Execute_poolTemplate n1 c1, Execute_poolTemplate n2 c2] at hdoc
    exact document_injective n1 n2 c1 c2 hn1 hn2 hdoc
  · refine ⟨_, Parse_poolTemplate, ?_, by decide, by decide⟩
    rw [Execute_poolTemplate, Execute_poolTemplate]
    decide

/-- C16 at the name `test-pool` with the CIDR `192.168.255.200/29`, rendered twice. -/
theorem poolTemplate_injective_witness :
    ('\n' ∉ "test-pool".data ∧ '\n' ∉ "192.168.255.200/29".data) ∧
    (∃ tmpl, template.Parse poolTemplate = some tmpl ∧
      (template.Execute (PoolConfig.lookup
          { PoolName := "test-pool", PoolCIDR := "192.168.255.200/29" }) tmpl).1 =
        "apiVersion: cilium.io/v2alpha1\nkind: CiliumLoadBalancerIPPool\nmetadata:\n  name: test-pool\nspec:\n  blocks:\n  - cidr: 192.168.255.200/29\n") ∧
    ("test-pool" = "test-pool" ∧ "192.168.255.200/29" = "192.168.255.200/29") :=
  ⟨by decide,
    ⟨_, Parse_poolTemplate, by rw [Execute_poolTemplate]; decide⟩,
    poolTemplate_injective.1 "test-pool" "test-pool" "192.168.255.200/29" "192.168.255.200/29"
      (by decide) (by decide) (by decide) (by decide) ⟨_, Parse_poolTemplate, rfl⟩⟩

/-! ## The stages of `main` -/

/-- A run whose extraction fails stops there. -/
theorem main_extract_fails (env : Env) (flags : Flags) (data : Data) (ip err : String)
    (hnodes : flags.nodesFile ≠ "") (hname : flags.poolName ≠ "")
    (hread : env.ReadFile flags.nodesFile = .ok data)
    (hextract : extractInternalIP data = (ip, some err)) :
    main env flags = Outcome.fail ("Error extracting internal IP: " ++ err ++ "\n") := by
  unfold main
  rw [if_neg (by simp [hnodes, hname])]
  simp only [hread, hextract]

/-- A run whose derivation fails stops there. -/
theorem main_derive_fails (env : Env) (flags : Flags) (data : Data) (ip cidr err : String)
    (hnodes : flags.nodesFile ≠ "") (hname : flags.poolName ≠ "")
    (hread : env.ReadFile flags.nodesFile = .ok data)
    (hextract : extractInternalIP data = (ip, none))
    (hcidr : computePoolCIDR ip flags.poolOffset flags.poolMask = (cidr, some err)) :
    main env flags = Outcome.fail ("Error computing pool CIDR: " ++ err ++ "\n") := by
  unfold main
  rw [if_neg (by simp [hnodes, hname])]
  simp only [hread, hextract, hcidr]

/-- A run that cannot create its output file stops there. -/
theorem main_create_fails (env : Env) (flags : Flags) (data : Data) (ip cidr err : String)
    (hnodes : flags.nodesFile ≠ "") (hname : flags.poolName ≠ "")
    (hread : env.ReadFile flags.nodesFile = .ok data)
    (hextract : extractInternalIP data = (ip, none))
    (hcidr : computePoolCIDR ip flags.poolOffset flags.poolMask = (cidr, none))
    (hout : flags.outputFile ≠ "-") (hcreate : env.Create flags.outputFile = some err) :
    main env flags = Outcome.fail ("Error creating output file: " ++ err ++ "\n") := by
  unfold main
  rw [if_neg (by simp [hnodes, hname])]
  simp only [hread, hextract, hcidr, Parse_poolTemplate, hout, if_false, hcreate]

/-- A run that gets as far as standard output hands it the rendered document; it
reports the error of the write, if there is one. -/
theorem main_writes_stdout (env : Env) (flags : Flags) (data : Data) (ip cidr : String)
    (hnodes : flags.nodesFile ≠ "") (hname : flags.poolName ≠ "")
    (hread : env.ReadFile flags.nodesFile = .ok data)
    (hextract : extractInternalIP data = (ip, none))
    (hcidr : computePoolCIDR ip flags.poolOffset flags.poolMask = (cidr, none))
    (hout : flags.outputFile = "-") :
    main env flags =
      match (env.Write none
        ("apiVersion: cilium.io/v2alpha1\nkind: CiliumLoadBalancerIPPool\nmetadata:\n  name: "
          ++ flags.poolName ++ "\nspec:\n  blocks:\n  - cidr: " ++ cidr ++ "\n")).2 with
      | some err =>
        { exitCode := 1, stderr := "Error executing template: " ++ err ++ "\n",
          stdout := (env.Write none
            ("apiVersion: cilium.io/v2alpha1\nkind: CiliumLoadBalancerIPPool\nmetadata:\n  name: "
              ++ flags.poolName ++ "\nspec:\n  blocks:\n  - cidr: " ++ cidr ++ "\n")).1,
          created := none, fileData := "" }
      | none =>
        { exitCode := 0, stderr := "",
          stdout := (env.Write none
            ("apiVersion: cilium.io/v2alpha1\nkind: CiliumLoadBalancerIPPool\nmetadata:\n  name: "
              ++ flags.poolName ++ "\nspec:\n  blocks:\n  - cidr: " ++ cidr ++ "\n")).1,
          created := none, fileData := "" } := by
  have hexec := Execute_poolTemplate flags.poolName cidr
  unfold main
  rw [if_neg (by simp [hnodes, hname])]
  simp only [hread, hextract, hcidr, Parse_poolTemplate, hexec, hout, if_true]
  cases (env.Write none
    ("apiVersion: cilium.io/v2alpha1\nkind: CiliumLoadBalancerIPPool\nmetadata:\n  name: "
      ++ flags.poolName ++ "\nspec:\n  blocks:\n  - cidr: " ++ cidr ++ "\n")).2 <;> rfl

/-- A run that creates its output file hands it the rendered document; it reports the
error of the write, if there is one. -/
theorem main_writes_file (env : Env) (flags : Flags) (data : Data) (ip cidr : String)
    (hnodes : flags.nodesFile ≠ "") (hname : flags.poolName ≠ "")
    (hread : env.ReadFile flags.nodesFile = .ok data)
    (hextract : extractInternalIP data = (ip, none))
    (hcidr : computePoolCIDR ip flags.poolOffset flags.poolMask = (cidr, none))
    (hout : flags.outputFile ≠ "-") (hcreate : env.Create flags.outputFile = none) :
    main env flags =
      match (env.Write (some flags.outputFile)
        ("apiVersion: cilium.io/v2alpha1\nkind: CiliumLoadBalancerIPPool\nmetadata:\n  name: "
          ++ flags.poolName ++ "\nspec:\n  blocks:\n  - cidr: " ++ cidr ++ "\n")).2 with
      | some err =>
        { exitCode := 1, stderr := "Error executing template: " ++ err ++ "\n",
          stdout := "", created := some flags.outputFile,
          fileData := (env.Write (some flags.outputFile)
            ("apiVersion: cilium.io/v2alpha1\nkind: CiliumLoadBalancerIPPool\nmetadata:\n  name: "
              ++ flags.poolName ++ "\nspec:\n  blocks:\n  - cidr: " ++ cidr ++ "\n")).1 }
      | none =>
        { exitCode := 0, stderr := "",
          stdout := "", created := some flags.outputFile,
          fileData := (env.Write (some flags.outputFile)
            ("apiVersion: cilium.io/v2alpha1\nkind: CiliumLoadBalancerIPPool\nmetadata:\n  name: "
              ++ flags.poolName ++ "\nspec:\n  blocks:\n  - cidr: " ++ cidr ++ "\n")).1 } := by
  have hexec := Execute_poolTemplate flags.poolName cidr
  unfold main
  rw [if_neg (by simp [hnodes, hname])]
  simp only [hread, hextract, hcidr, Parse_poolTemplate, hexec, hout, if_false, hcreate]
  cases (env.Write (some flags.outputFile)
    ("apiVersion: cilium.io/v2alpha1\nkind: CiliumLoadBalancerIPPool\nmetadata:\n  name: "
      ++ flags.poolName ++ "\nspec:\n  blocks:\n  - cidr: " ++ cidr ++ "\n")).2 <;> rfl

/-- A result without error is the pair of its value and no error. -/
theorem eq_of_snd_none (r : String × Option String) (h : r.2 = none) : r = (r.1, none) := by
  rw [← h]

/-- A result with an error is the pair of its value and that error. -/
theorem eq_of_snd_some (r : String × Option String) (err : String) (h : r.2 = some err) :
    r = (r.1, some err) := by
  rw [← h]

/-- C11, refuted as stated: on the input of `TestEndToEnd` extraction and derivation both
succeed, but with an output file that `os.Create` refuses the run stops with an error and
no document is written anywhere. -/
theorem main_no_document_when_create_fails :
    (extractInternalIP singleNodeJson).2 = none ∧
    (computePoolCIDR (extractInternalIP singleNodeJson).1 200 29).2 = none ∧
    main (exampleEnv singleNodeJson (some "open /nonexistent/pool.yaml: no such file or directory"))
        (exampleFlags "/nonexistent/pool.yaml") =
      Outcome.fail
        "Error creating output file: open /nonexistent/pool.yaml: no such file or directory\n" ∧
    (main (exampleEnv singleNodeJson (some "open /nonexistent/pool.yaml: no such file or directory"))
        (exampleFlags "/nonexistent/pool.yaml")).hasOutput = false := by
  have hmain := main_create_fails
    (exampleEnv singleNodeJson (some "open /nonexistent/pool.yaml: no such file or directory"))
    (exampleFlags "/nonexistent/pool.yaml") singleNodeJson "192.168.1.100" "192.168.255.200/29"
    "open /nonexistent/pool.yaml: no such file or directory"
    (by decide) (by decide) rfl (by decide) (by decide) (by decide) rfl
  refine ⟨by decide, by decide, hmain, ?_⟩
  rw [hmain]
  rfl

/-- C11, amended: `main` stops at the first failing stage. For a run that has read its
nodes file: when extraction fails, or when derivation fails, the run ends with that error
and no output destination is created or written; when both succeed but `os.Create`
refuses the output file, the run ends with that error and again nothing is created or
written; when both succeed and the destination is there (standard output, or the created
file), the rendered document is what is handed to it, and the run exits with 0 exactly
when the write has no error. So any output, and an exit with 0, occur only after
extraction and derivation have both succeeded and the destination was available. -/
theorem main_pipeline (env : Env) (flags : Flags) (data : Data)
    (hnodes : flags.nodesFile ≠ "") (hname : flags.poolName ≠ "")
    (hread : env.ReadFile flags.nodesFile = .ok data) :
    (∀ err, (extractInternalIP data).2 = some err →
      main env flags = Outcome.fail ("Error extracting internal IP: " ++ err ++ "\n")) ∧
    (∀ err, (extractInternalIP data).2 = none →
      (computePoolCIDR (extractInternalIP data).1 flags.poolOffset flags.poolMask).2 = some err →
      main env flags = Outcome.fail ("Error computing pool CIDR: " ++ err ++ "\n")) ∧
    (∀ err, (extractInternalIP data).2 = none →
      (computePoolCIDR (extractInternalIP data).1 flags.poolOffset flags.poolMask).2 = none →
      flags.outputFile ≠ "-" → env.Create flags.outputFile = some err →
      main env flags = Outcome.fail ("Error creating output file: " ++ err ++ "\n")) ∧
    (∀ doc, (extractInternalIP data).2 = none →
      (computePoolCIDR (extractInternalIP data).1 flags.poolOffset flags.poolMask).2 = none →
      doc = "apiVersion: cilium.io/v2alpha1\nkind: CiliumLoadBalancerIPPool\nmetadata:\n  name: "
        ++ flags.poolName ++ "\nspec:\n  blocks:\n  - cidr: "
        ++ (computePoolCIDR (extractInternalIP data).1 flags.poolOffset flags.poolMask).1 ++ "\n" →
      (flags.outputFile = "-" →
        (main env flags).stdout = (env.Write none doc).1 ∧
        (main env flags).created = none ∧ (main env flags).fileData = "" ∧
        ((main env flags).exitCode = 0 ↔ (env.Write none doc).2 = none)) ∧
      (flags.outputFile ≠ "-" → env.Create flags.outputFile = none →
        (main env flags).stdout = "" ∧
        (main env flags).created = some flags.outputFile ∧
        (main env flags).fileData = (env.Write (some flags.outputFile) doc).1 ∧
        ((main env flags).exitCode = 0 ↔
          (env.Write (some flags.outputFile) doc).2 = none))) ∧
    ((main env flags).hasOutput = true ∨ (main env flags).exitCode = 0 →
      (extractInternalIP data).2 = none ∧
      (computePoolCIDR (extractInternalIP data).1 flags.poolOffset flags.poolMask).2 = none ∧
      (flags.outputFile = "-" ∨ env.Create flags.outputFile = none)) ∧
    (∀ msg, (Outcome.fail msg).hasOutput = false ∧ (Outcome.fail msg).exitCode = 1) := by
  have h1 : ∀ err, (extractInternalIP data).2 = some err →
      main env flags = Outcome.fail ("Error extracting internal IP: " ++ err ++ "\n") :=
    fun err he => main_extract_fails env flags data _ err hnodes hname hread
      (eq_of_snd_some _ err he)
  have h2 : ∀ err, (extractInternalIP data).2 = none →
      (computePoolCIDR (extractInternalIP data).1 flags.poolOffset flags.poolMask).2 = some err →
      main env flags = Outcome.fail ("Error computing pool CIDR: " ++ err ++ "\n") :=
    fun err he hd => main_derive_fails env flags data _ _ err hnodes hname hread
      (eq_of_snd_none _ he) (eq_of_snd_some _ err hd)
  have h3 : ∀ err, (extractInternalIP data).2 = none →
      (computePoolCIDR (extractInternalIP data).1 flags.poolOffset flags.poolMask).2 = none →
      flags.outputFile ≠ "-" → env.Create flags.outputFile = some err →
      main env flags = Outcome.fail ("Error creating output file: " ++ err ++ "\n") :=
    fun err he hd hout hc => main_create_fails env flags data _ _ err hnodes hname hread
      (eq_of_snd_none _ he) (eq_of_snd_none _ hd) hout hc
  have hfail : ∀ msg, (Outcome.fail msg).hasOutput = false ∧ (Outcome.fail msg).exitCode = 1 :=
    fun _ => ⟨rfl, rfl⟩
  refine ⟨h1, h2, h3, ?_, ?_, hfail⟩
  · intro doc he hd hdoc
    constructor
    · intro hout
      have hm := main_writes_stdout env flags data _ _ hnodes hname hread
        (eq_of_snd_none _ he) (eq_of_snd_none _ hd) hout
      rw [← hdoc] at hm
      rw [hm]
      cases hw : (env.Write none doc).2 <;> simp
    · intro hout hc
      have hm := main_writes_file env flags data _ _ hnodes hname hread
        (eq_of_snd_none _ he) (eq_of_snd_none _ hd) hout hc
      rw [← hdoc] at hm
      rw [hm]
      cases hw : (env.Write (some flags.outputFile) doc).2 <;> simp
  · intro hany
    have hne : ∀ msg, main env flags = Outcome.fail msg → False := by
      intro msg hm
      rw [hm] at hany
      rcases hany with h | h
      · exact absurd h (by simp [(hfail msg).1])
      · exact absurd h (by simp [(hfail msg).2])
    cases he : (extractInternalIP data).2 with
    | some err => exact absurd (h1 err he) (fun hm => hne _ hm)
    | none =>
      cases hd : (computePoolCIDR (extractInternalIP data).1 flags.poolOffset
          flags.poolMask).2 with
      | some err => exact absurd (h2 err he hd) (fun hm => hne _ hm)
      | none =>
        refine ⟨rfl, rfl, ?_⟩
        by_cases hout : flags.outputFile = "-"
        · exact Or.inl hout
        · right
          cases hc : env.Create flags.outputFile with
          | none => rfl
          | some err => exact absurd (h3 err he hd hout hc) (fun hm => hne _ hm)

/-- C11, amended, on four runs: the input of `TestEndToEnd` written to standard output;
bytes that are not JSON; an input whose internal IP is not a dotted quad; and the input of
`TestEndToEnd` with an output file that is created. -/
theorem main_pipeline_witness :
    ((exampleFlags "-").nodesFile ≠ "" ∧ (exampleFlags "-").poolName ≠ "") ∧
    (main (exampleEnv singleNodeJson none) (exampleFlags "-")).stdout =
      "apiVersion: cilium.io/v2alpha1\nkind: CiliumLoadBalancerIPPool\nmetadata:\n  name: e2e-test-pool\nspec:\n  blocks:\n  - cidr: 192.168.255.200/29\n" ∧
    main (exampleEnv Data.malformed none) (exampleFlags "-") =
      Outcome.fail "Error extracting internal IP: could not find InternalIP in nodes data\n" ∧
    main (exampleEnv badAddressJson none) (exampleFlags "-") =
      Outcome.fail "Error computing pool CIDR: invalid IP address format: not-an-ip\n" ∧
    (main (exampleEnv singleNodeJson none) (exampleFlags "pool.yaml")).created =
      some "pool.yaml" :=
  ⟨by decide,
    ((main_pipeline (exampleEnv singleNodeJson none) (exampleFlags "-") singleNodeJson
      (by decide) (by decide) rfl).2.2.2.1 _ (by decide) (by decide) rfl).1 rfl |>.1,
    (main_pipeline (exampleEnv Data.malformed none) (exampleFlags "-") Data.malformed
      (by decide) (by decide) rfl).1 "could not find InternalIP in nodes data" (by decide),
    (main_pipeline (exampleEnv badAddressJson none) (exampleFlags "-") badAddressJson
      (by decide) (by decide) rfl).2.1 "invalid IP address format: not-an-ip" (by decide)
      (by decide),
    ((main_pipeline (exampleEnv singleNodeJson none) (exampleFlags "pool.yaml") singleNodeJson
      (by decide) (by decide) rfl).2.2.2.1 _ (by decide) (by decide) rfl).2
      (by decide) rfl |>.2.1⟩

end GenPool
